import Mathlib

/-!
Verification of the Maestro MCP server core (`src/maestro-client.ts`):
the YAML flow-document builder (`buildYaml`, `formatStep`, `formatValue`,
`escapeYaml`), the process-runner result normalisation (`exec`,
`execStream`), the execution orchestrator's scratch-directory lifecycle
(`executeSteps`, `executeStepsMultiDevice`, `takeScreenshot`) and the
device-inventory parsing (`listDevices`).

The JavaScript code is shallowly embedded: JS values that can appear in a
step's `params` field are modelled by the inductive `JValue` (JS numbers are
modelled as integers, which covers every numeric literal the claims touch);
asynchronous, effectful methods are modelled as pure functions over an
explicit oracle describing what the external process / filesystem did,
together with an event log recording the filesystem operations performed.
-/

namespace Maestro

/-- A JavaScript value as it may appear in a step's `params` field
(`null`, string, number, boolean, array, or plain object whose entries are
kept in iteration order).  JS numbers are modelled as `Int`. -/
inductive JValue where
  | null : JValue
  | str : String → JValue
  | num : Int → JValue
  | bool : Bool → JValue
  | arr : List JValue → JValue
  | obj : List (String × JValue) → JValue

/-- A flow step (`FlowStep` in `maestro-client.ts`): a command name and an
optional `params` value.  `params = none` models the field being absent or
`undefined`. -/
structure FlowStep where
  command : String
  params : Option JValue

/-- JS `Array.prototype.join(sep)` on a list of strings. -/
def joinSep (sep : String) : List String → String
  | [] => ""
  | [x] => x
  | x :: y :: xs => x ++ sep ++ joinSep sep (y :: xs)

/-- Global single-character replacement on a character list, the semantics of
JS `s.replace(/c/g, r)` for a single-character pattern `c`. -/
def replaceChar (c : Char) (r : List Char) : List Char → List Char
  | [] => []
  | x :: xs => (if x = c then r else [x]) ++ replaceChar c r xs

/-- First pass of `escapeYaml` in the source:
`s.replace(/\\/g, "\\\\")` — every backslash becomes two. -/
def escapeBackslashes (s : String) : String :=
  String.mk (replaceChar '\\' ['\\', '\\'] s.data)

/-- Second pass of `escapeYaml` in the source:
`s.replace(/"/g, '\\"')` — every double quote becomes backslash-quote. -/
def escapeQuotes (s : String) : String :=
  String.mk (replaceChar '"' ['\\', '"'] s.data)

/-- `escapeYaml` from `maestro-client.ts`:
`s.replace(/\\/g, "\\\\").replace(/"/g, '\\"')`, i.e. the backslash pass
followed by the quote pass. -/
def escapeYaml (s : String) : String :=
  escapeQuotes (escapeBackslashes s)

/-- One hexadecimal digit (lowercase), as used by `JSON.stringify` for
control-character escapes. -/
def hexDigit (n : Nat) : Char :=
  if n < 10 then Char.ofNat (48 + n) else Char.ofNat (87 + n)

/-- How `JSON.stringify` escapes one character inside a string literal. -/
def jsonEscapeChar (c : Char) : List Char :=
  if c = '"' then ['\\', '"']
  else if c = '\\' then ['\\', '\\']
  else if c = '\n' then ['\\', 'n']
  else if c = '\r' then ['\\', 'r']
  else if c = '\t' then ['\\', 't']
  else if c = '\x08' then ['\\', 'b']
  else if c = '\x0c' then ['\\', 'f']
  else if c.toNat < 32 then
    ['\\', 'u', '0', '0', hexDigit (c.toNat / 16), hexDigit (c.toNat % 16)]
  else [c]

/-- `JSON.stringify` string-body escaping. -/
def jsonEscape (s : String) : String :=
  String.mk (s.data.flatMap jsonEscapeChar)

mutual

/-- `JSON.stringify` on a `JValue` (compact form, no spacing), as used by the
fallback branches of `formatStep` and `formatValue`. -/
def jsonStringify : JValue → String
  | .null => "null"
  | .str s => "\"" ++ jsonEscape s ++ "\""
  | .num n => toString n
  | .bool b => if b then "true" else "false"
  | .arr xs => "[" ++ jsonArr xs ++ "]"
  | .obj kvs => "\x7b" ++ jsonObj kvs ++ "\x7d"

/-- Comma-joined serialization of array elements. -/
def jsonArr : List JValue → String
  | [] => ""
  | [x] => jsonStringify x
  | x :: y :: xs => jsonStringify x ++ "," ++ jsonArr (y :: xs)

/-- Comma-joined serialization of object members. -/
def jsonObj : List (String × JValue) → String
  | [] => ""
  | [kv] => "\"" ++ jsonEscape kv.1 ++ "\":" ++ jsonStringify kv.2
  | kv :: kv2 :: kvs =>
    "\"" ++ jsonEscape kv.1 ++ "\":" ++ jsonStringify kv.2 ++ "," ++ jsonObj (kv2 :: kvs)

end

/-- `formatValue` from `maestro-client.ts`: strings are quoted and
YAML-escaped, numbers and booleans are rendered with `String(v)`, everything
else falls back to `JSON.stringify`. -/
def formatValue : JValue → String
  | .str s => "\"" ++ escapeYaml s ++ "\""
  | .num n => toString n
  | .bool b => if b then "true" else "false"
  | v => jsonStringify v

/-- The JS test `typeof v === "object" && v !== null`: true exactly for
plain objects and arrays (`null` is excluded explicitly in the source). -/
def isObjectNonNull : JValue → Bool
  | .obj _ => true
  | .arr _ => true
  | _ => false

/-- `Object.entries` restricted to the values on which the source calls it
(values passing `isObjectNonNull`): for a plain object its key/value pairs in
iteration order, for an array its elements keyed by decimal indices. -/
def enumEntries (i : Nat) : List JValue → List (String × JValue)
  | [] => []
  | x :: xs => (toString i, x) :: enumEntries (i + 1) xs

/-- `Object.entries` restricted to the values on which the source calls it. -/
def objectEntries : JValue → List (String × JValue)
  | .obj kvs => kvs
  | .arr xs => enumEntries 0 xs
  | _ => []

/-- One nested line `        ${nk}: ${formatValue(nv)}` of the object block
(inner `.map` of the source), joined over all entries of the nested value. -/
def renderNested (v : JValue) : String :=
  joinSep "\n" ((objectEntries v).map fun kv => "        " ++ kv.1 ++ ": " ++ formatValue kv.2)

/-- One entry line of the object block of `formatStep`: a nested
object/array value renders as `      ${k}:` followed by its own indented
lines, any other value as `      ${k}: ${formatValue(v)}`. -/
def renderEntry (kv : String × JValue) : String :=
  if isObjectNonNull kv.2 then
    "      " ++ kv.1 ++ ":\n" ++ renderNested kv.2
  else
    "      " ++ kv.1 ++ ": " ++ formatValue kv.2

/-- `formatStep` from `maestro-client.ts`.  The source's chain of `typeof`
tests is rendered as a match whose arms appear in the source's order:
absent/`null` params, string, number, boolean, non-array object, and the
final `JSON.stringify` fallback (which, among `JValue`s, is reached exactly
by arrays). -/
def formatStep (step : FlowStep) : String :=
  match step.params with
  | none => "- " ++ step.command
  | some .null => "- " ++ step.command
  | some (.str s) => "- " ++ step.command ++ ": \"" ++ escapeYaml s ++ "\""
  | some (.num n) => "- " ++ step.command ++ ": " ++ toString n
  | some (.bool b) => "- " ++ step.command ++ ": " ++ (if b then "true" else "false")
  | some (.obj kvs) => "- " ++ step.command ++ ":\n" ++ joinSep "\n" (kvs.map renderEntry)
  | some (.arr xs) => "- " ++ step.command ++ ": " ++ jsonStringify (.arr xs)

/-- `buildYaml` from `maestro-client.ts`: the lines
`appId: ${appId}`, `---`, then one formatted step per input step, joined
with newlines, plus a trailing newline. -/
def buildYaml (appId : String) (steps : List FlowStep) : String :=
  joinSep "\n" (("appId: " ++ appId) :: "---" :: steps.map formatStep) ++ "\n"

/-- The strings of a list, each preceded by a newline, concatenated: the
tail of a newline-join. -/
def tailJoin : List String → String
  | [] => ""
  | y :: r => "\n" ++ y ++ tailJoin r

/-- Stated from the spec's words, for comparison with `buildYaml`: the
block sequence of a step list is one `formatStep` rendering per step, in
order, each preceded by the newline that joins it to the previous line. -/
def specBlocks (steps : List FlowStep) : String :=
  tailJoin (steps.map formatStep)

example : buildYaml "com.example.app" [] = "appId: com.example.app\n---\n" := by decide

example : formatStep ⟨"tapOn", some (.str "Login")⟩ = "- tapOn: \"Login\"" := by decide

example : escapeYaml "a\\\"b" = "a\\\\\\\"b" := by decide

example : formatStep ⟨"custom", some (.arr [.num 1, .num 2, .num 3])⟩ = "- custom: [1,2,3]" := by
  decide

example :
    formatStep ⟨"tapOn", some (.obj [("point", .obj [("x", .num 50), ("y", .num 100)])])⟩ =
      "- tapOn:\n      point:\n        x: 50\n        y: 100" := by decide

/-- `ExecResult` from `maestro-client.ts`. -/
structure ExecResult where
  stdout : String
  stderr : String
  exitCode : Int
deriving DecidableEq

/-- The error object Node passes to the `execFile` callback / emits on the
child process's `error` event: its `message` and its `code` property when
that property is a number (`code = none` models an absent or non-numeric
`code`, e.g. the string `'ENOENT'` of a spawn failure). -/
structure ExecError where
  code : Option Int
  message : String

/-- The arguments Node supplies to the `execFile` callback that `exec`
installs: `error` is `none` on a clean zero exit; `stdout`/`stderr` are
`none` when the corresponding value is unavailable (`?? ""` in the
source). -/
structure ExecFileCallback where
  error : Option ExecError
  stdout : Option String
  stderr : Option String

/-- `exec` from `maestro-client.ts` (buffered mode), as a function of the
callback arguments: the promise is always resolved (never rejected), with
`exitCode` 0 when there is no error, the error's `code` when that is a
number, and 1 otherwise; `stdout`/`stderr` default to `""`. -/
def exec (cb : ExecFileCallback) : ExecResult :=
  { stdout := cb.stdout.getD ""
    stderr := cb.stderr.getD ""
    exitCode :=
      match cb.error with
      | none => 0
      | some e =>
        match e.code with
        | some c => c
        | none => 1 }

/-- The event that settles the promise of `execStream`: either the child's
`close` event with its (possibly `null`) exit code, or the `error` event of
a spawn-level failure. -/
inductive StreamOutcome where
  | close (code : Option Int)
  | errorEvent (e : ExecError)

/-- One run of the child process spawned by `execStream`: the stdout and
stderr chunks received before the process settled, and how it settled. -/
structure StreamRun where
  outChunks : List String
  errChunks : List String
  outcome : StreamOutcome

/-- `execStream` from `maestro-client.ts` (streaming mode), as a function of
the observed child-process run: chunks are accumulated by concatenation; on
`close` the exit code is the reported code or 1 when `null`
(`code ?? 1`); on `error` the promise still resolves, with exit code 1 and
the error message appended to stderr after a newline. -/
def execStream (run : StreamRun) : ExecResult :=
  let stdout := String.join run.outChunks
  let stderr := String.join run.errChunks
  match run.outcome with
  | .close code => { stdout := stdout, stderr := stderr, exitCode := code.getD 1 }
  | .errorEvent e =>
    { stdout := stdout, stderr := stderr ++ "\n" ++ e.message, exitCode := 1 }

/-- A filesystem event performed by an orchestrator method, in order:
creation of the scratch directory (`mkdtemp`), a file write (`writeFile`),
one `runFlow` launch against a device, and an `rm` attempt on the scratch
directory (`ok` records whether the deletion itself succeeded). -/
inductive FsEvent where
  | mkdtemp (dir : String)
  | write (path : String)
  | run (deviceId : Option String)
  | rmAttempt (ok : Bool)
deriving DecidableEq

/-- Recognises a scratch-directory deletion attempt. -/
def isRmAttempt : FsEvent → Bool
  | .rmAttempt _ => true
  | _ => false

/-- The filesystem state an orchestrator method threads: whether the scratch
directory it created still exists, and the log of events so far. -/
structure FsState where
  dirExists : Bool
  events : List FsEvent

/-- JS `try { body } finally { fin }` for a state-passing body that either
returns a value or propagates a thrown error: the finaliser runs on both
paths and the body's outcome (value or error) is what the caller sees. -/
def tryFinally {σ ε α : Type} (body : σ → Except ε α × σ) (fin : σ → σ) (s : σ) :
    Except ε α × σ :=
  let r := body s
  (r.1, fin r.2)

/-- `rm(dir, { recursive: true, force: true }).catch(() => {})`: the attempt
is logged; when the deletion succeeds the directory is gone; when the
deletion itself fails the error is swallowed and the state is otherwise
unchanged. -/
def rmCatch (rmOk : Bool) (s : FsState) : FsState :=
  { dirExists := s.dirExists && !rmOk, events := s.events ++ [.rmAttempt rmOk] }

/-- How one `runFlow` invocation settles, as seen by `executeSteps`: since
`runFlow` delegates to `execStream`, it normally resolves to an
`ExecResult`, but the model also admits a thrown/rejected run (`thrown`) so
that the cleanup guarantee can be checked on the exceptional path. -/
inductive RunOutcome where
  | ok (r : ExecResult)
  | thrown (msg : String)

/-- `MaestroClient.executeSteps`, with the nondeterministic environment made
explicit: `dir` is the fresh name `mkdtemp` returned, `runOut` is how the
single `runFlow` invocation settled, and `rmOk` is whether the final
deletion of the scratch directory succeeded.  Mirrors the source: build the
YAML, create the scratch directory, write `flow.yaml` into it, then
`try { runFlow } finally { rm(dir).catch(() => {}) }`. -/
def executeSteps (dir appId : String) (steps : List FlowStep) (runOut : RunOutcome)
    (rmOk : Bool) : Except String (String × ExecResult) × FsState :=
  let yaml := buildYaml appId steps
  let s0 : FsState := ⟨true, [.mkdtemp dir, .write (dir ++ "/flow.yaml")]⟩
  tryFinally
    (fun s =>
      match runOut with
      | .ok r => (.ok (yaml, r), { s with events := s.events ++ [.run none] })
      | .thrown m => (.error m, { s with events := s.events ++ [.run none] }))
    (rmCatch rmOk) s0

/-- JS `results[id] = result` on a string-keyed object modelled as an
insertion-ordered association list: assignment to an existing key updates
the value in place, a new key is appended. -/
def recordSet (m : List (String × ExecResult)) (k : String) (v : ExecResult) :
    List (String × ExecResult) :=
  if m.any (fun kv => kv.1 == k) then
    m.map (fun kv => if kv.1 == k then (k, v) else kv)
  else m ++ [(k, v)]

/-- `MaestroClient.executeStepsMultiDevice`, with the environment explicit:
`outcomes` gives the `ExecResult` each device's `runFlow` invocation
resolved to (`execStream` always resolves, so per-device runs cannot
reject), and `rmOk` is whether the single final deletion of the shared
scratch directory succeeded.  Mirrors the source: build the YAML once,
create one scratch directory, write `flow.yaml` once, fan out one `runFlow`
per device id via `Promise.all`, collect `[id, result]` pairs into a
string-keyed record, and delete the directory once in the `finally`. -/
def executeStepsMultiDevice (dir appId : String) (steps : List FlowStep)
    (deviceIds : List String) (outcomes : String → ExecResult) (rmOk : Bool) :
    Except String (String × List (String × ExecResult)) × FsState :=
  let yaml := buildYaml appId steps
  let s0 : FsState := ⟨true, [.mkdtemp dir, .write (dir ++ "/flow.yaml")]⟩
  tryFinally
    (fun s =>
      let entries := deviceIds.map (fun id => (id, outcomes id))
      let results := entries.foldl (fun m kv => recordSet m kv.1 kv.2) []
      (.ok (yaml, results),
       { s with events := s.events ++ deviceIds.map (fun id => FsEvent.run (some id)) }))
    (rmCatch rmOk) s0

/-- `MaestroClient.takeScreenshot`, with the environment explicit: `dir` is
the fresh scratch directory `mkdtemp` returned and `runRes` is the result
of the `execStream` invocation.  Mirrors the source: the screenshot path is
the caller-supplied `outputPath` when given, else `screenshot.png` inside
the new scratch directory; a minimal flow is written to
`screenshot_flow.yaml` inside the scratch directory; the flow is run; the
scratch directory is never deleted (there is no `rm` on any path). -/
def takeScreenshot (dir : String) (deviceId outputPath : Option String)
    (runRes : ExecResult) : (String × ExecResult) × FsState :=
  let screenshotPath := outputPath.getD (dir ++ "/screenshot.png")
  let s : FsState :=
    ⟨true, [.mkdtemp dir, .write (dir ++ "/screenshot_flow.yaml"), .run deviceId]⟩
  ((screenshotPath, runRes), s)

/-- An Android device record produced by `listDevices`. -/
structure AndroidDevice where
  id : String
  status : String
deriving DecidableEq

/-- An iOS device record produced by `listDevices`. -/
structure IosDevice where
  id : String
  name : String
  status : String
deriving DecidableEq

/-- One simulator entry of the `xcrun simctl list devices --json` output, in
the shape the source reads: `udid`, `name`, an optional `state` string and
an optional `isAvailable` boolean (`none` models the field being absent). -/
structure SimDevice where
  udid : String
  name : String
  state : Option String
  isAvailable : Option Bool
deriving DecidableEq

/-- JS `String.prototype.split` with a single-character separator, on
character lists: `"" → [""]`, and a trailing separator yields a trailing
empty segment, as in JS. -/
def splitOnChar (c : Char) : List Char → List (List Char)
  | [] => [[]]
  | x :: xs =>
    let r := splitOnChar c xs
    if x = c then [] :: r
    else
      match r with
      | [] => [[x]]
      | h :: t => (x :: h) :: t

/-- `stdout.split("\n")` as a list of line strings. -/
def splitLines (s : String) : List String :=
  (splitOnChar '\n' s.data).map String.mk

/-- JS `String.prototype.trim`: strip leading and trailing whitespace. -/
def jsTrim (s : String) : String :=
  String.mk (((s.data.dropWhile Char.isWhitespace).reverse.dropWhile
    Char.isWhitespace).reverse)

/-- JS `String.prototype.toLowerCase` (character-wise; the states produced
by `simctl` are ASCII). -/
def jsToLower (s : String) : String :=
  String.mk (s.data.map Char.toLower)

/-- The regex `^(\S+)\s+(device|offline|unauthorized)$` applied to
`line.trim()`: a maximal nonempty run of non-whitespace characters, a
nonempty whitespace run, then exactly one of the three status words. -/
def matchDeviceLine (line : String) : Option (String × String) :=
  let t := jsTrim line
  let idChars := t.data.takeWhile (fun c => !c.isWhitespace)
  let rest := t.data.dropWhile (fun c => !c.isWhitespace)
  let wsChars := rest.takeWhile Char.isWhitespace
  let status := String.mk (rest.dropWhile Char.isWhitespace)
  if idChars ≠ [] ∧ wsChars ≠ [] ∧
      (status = "device" ∨ status = "offline" ∨ status = "unauthorized") then
    some (String.mk idChars, status)
  else none

/-- The Android half of `MaestroClient.listDevices`: when the `adb devices`
invocation failed (non-zero exit, including the `.catch` fallback that maps
a rejection to exit code 1) the list is empty; otherwise the stdout is split
into lines, the header line is skipped, and each remaining line that matches
the device pattern contributes one record. -/
def parseAndroid (res : ExecResult) : List AndroidDevice :=
  if res.exitCode = 0 then
    ((splitLines res.stdout).drop 1).filterMap fun line =>
      (matchDeviceLine line).map fun m => ⟨m.1, m.2⟩
  else []

/-- The last element of a list of character lists (`Array.prototype.pop` on
the result of `split`, which is never empty). -/
def lastSeg : List (List Char) → List Char
  | [] => []
  | [x] => x
  | _ :: y :: xs => lastSeg (y :: xs)

/-- `runtime.split(".").pop()`: the last dot-separated component. -/
def lastComponent (s : String) : String :=
  String.mk (lastSeg (splitOnChar '.' s.data))

/-- `device.state?.toLowerCase() ?? "unknown"`. -/
def iosStatusOf (state : Option String) : String :=
  (state.map jsToLower).getD "unknown"

/-- The iOS half of `MaestroClient.listDevices`, as a function of the
`xcrun` exit code and of the outcome of `JSON.parse` on its stdout:
`parsed = none` models a JSON parse failure (the `catch` branch), and
`parsed = some runtimes` the parsed `data.devices` object as a list of
(runtime key, simulator entries) pairs in iteration order.  A failed
invocation or a parse failure yields the empty list; otherwise every entry
whose `isAvailable` is not explicitly `false` contributes one record. -/
def parseIos (exitCode : Int) (parsed : Option (List (String × List SimDevice))) :
    List IosDevice :=
  if exitCode = 0 then
    match parsed with
    | none => []
    | some runtimes =>
      runtimes.flatMap fun rt =>
        (rt.2.filter fun d => d.isAvailable ≠ some false).map fun d =>
          { id := d.udid
            name := d.name ++ " (" ++ lastComponent rt.1 ++ ")"
            status := iosStatusOf d.state }
  else []

/-- `MaestroClient.listDevices`, with the two discovery-command outcomes as
explicit inputs: the Android result is parsed from the `adb` invocation
alone and the iOS result from the `xcrun` invocation alone. -/
def listDevices (androidRes : ExecResult) (iosExit : Int)
    (iosParsed : Option (List (String × List SimDevice))) :
    List AndroidDevice × List IosDevice :=
  (parseAndroid androidRes, parseIos iosExit iosParsed)

example :
    parseAndroid ⟨"List of devices attached\nemulator-5554\tdevice\nABC123\toffline\n\n", "", 0⟩ =
      [⟨"emulator-5554", "device"⟩, ⟨"ABC123", "offline"⟩] := by decide

example :
    parseIos 0 (some [("com.apple.CoreSimulator.SimRuntime.iOS-17-5",
        [⟨"5B6D", "iPhone 16", some "Booted", some true⟩,
         ⟨"DEAD", "iPhone SE", some "Shutdown", some false⟩])]) =
      [⟨"5B6D", "iPhone 16 (iOS-17-5)", "booted"⟩] := by decide

example : parseIos 0 (some [("r", [⟨"AAA-BBB", "iPad Pro", none, some true⟩])]) =
    [⟨"AAA-BBB", "iPad Pro (r)", "unknown"⟩] := by decide

theorem joinSep_newline_cons (l : List String) (x : String) :
    joinSep "\n" (x :: l) = x ++ tailJoin l := by
  induction l generalizing x with
  | nil => simp [joinSep, tailJoin, String.append_empty]
  | cons y r ih =>
    show x ++ "\n" ++ joinSep "\n" (y :: r) = x ++ tailJoin (y :: r)
    rw [ih y]
    show x ++ "\n" ++ (y ++ tailJoin r) = x ++ ("\n" ++ y ++ tailJoin r)
    simp [String.append_assoc]

/-- C1: for every application id and step list, `buildYaml` renders the
header line `appId: <id>`, the separator line `---`, and then exactly one
`formatStep` block per step, in input order, each joined by a newline, with
a single trailing newline; in particular on the empty step list it renders
exactly `appId: com.example.app\n---\n`. -/
theorem buildYaml_header_separator_blocks :
    (∀ A S, buildYaml A S = "appId: " ++ A ++ "\n" ++ "---" ++ specBlocks S ++ "\n") ∧
    (∀ S st, specBlocks (st :: S) = "\n" ++ formatStep st ++ specBlocks S) ∧
    specBlocks [] = "" ∧
    buildYaml "com.example.app" [] = "appId: com.example.app\n---\n" := by
  refine ⟨fun A S => ?_, fun S st => rfl, rfl, by decide⟩
  show joinSep "\n" (("appId: " ++ A) :: "---" :: S.map formatStep) ++ "\n" = _
  rw [joinSep_newline_cons]
  show ("appId: " ++ A) ++ ("\n" ++ "---" ++ tailJoin (S.map formatStep)) ++ "\n" = _
  simp [String.append_assoc, specBlocks]

/-- C2: `formatStep` applies the rendering rules of the spec in the
source's priority order, and is total over every shape a `params` value can
take (the match below covers every `JValue` constructor): absent or `null`
parameters give the bare bullet, a string gives the quoted escaped inline
form, numbers and booleans give unquoted literals, a non-array object gives
the multi-line block with one indented `key: value` line per entry in
iteration order (one further indentation level when the value is itself an
object), and an array — the only remaining `JValue` shape — falls through
to the `JSON.stringify` form, never the object-block form. -/
theorem formatStep_priority_rules :
    (∀ c, formatStep ⟨c, none⟩ = "- " ++ c) ∧
    (∀ c, formatStep ⟨c, some .null⟩ = "- " ++ c) ∧
    (∀ c s, formatStep ⟨c, some (.str s)⟩ = "- " ++ c ++ ": \"" ++ escapeYaml s ++ "\"") ∧
    (∀ c n, formatStep ⟨c, some (.num n)⟩ = "- " ++ c ++ ": " ++ toString n) ∧
    (∀ c b, formatStep ⟨c, some (.bool b)⟩ =
      "- " ++ c ++ ": " ++ (if b then "true" else "false")) ∧
    (∀ c kvs, formatStep ⟨c, some (.obj kvs)⟩ =
      "- " ++ c ++ ":\n" ++ joinSep "\n" (kvs.map renderEntry)) ∧
    (∀ k v, isObjectNonNull v = false →
      renderEntry (k, v) = "      " ++ k ++ ": " ++ formatValue v) ∧
    (∀ k nkvs, renderEntry (k, .obj nkvs) = "      " ++ k ++ ":\n" ++
      joinSep "\n" (nkvs.map fun nkv => "        " ++ nkv.1 ++ ": " ++ formatValue nkv.2)) ∧
    (∀ c xs, formatStep ⟨c, some (.arr xs)⟩ = "- " ++ c ++ ": " ++ jsonStringify (.arr xs)) := by
  refine ⟨fun c => rfl, fun c => rfl, fun c s => rfl, fun c n => rfl, fun c b => rfl,
    fun c kvs => rfl, fun k v h => ?_, fun k nkvs => rfl, fun c xs => rfl⟩
  simp [renderEntry, h]

theorem formatStep_priority_rules_witness :
    isObjectNonNull (.str "Login") = false ∧
    renderEntry ("text", .str "Login") = "      " ++ "text" ++ ": " ++ formatValue (.str "Login") :=
  ⟨by decide, formatStep_priority_rules.2.2.2.2.2.2.1 "text" (.str "Login") (by decide)⟩

/-- C3: `escapeYaml` is the sequential composition of the
backslash-doubling pass followed by the quote-escaping pass (in that
order), and on the four-character input `a\"b` it produces the
six-character output `a\\\"b`. -/
theorem escapeYaml_sequential :
    (∀ s, escapeYaml s = escapeQuotes (escapeBackslashes s)) ∧
    escapeYaml "a\\\"b" = "a\\\\\\\"b" :=
  ⟨fun _ => rfl, by decide⟩

theorem enumEntries_keys (xs : List JValue) :
    ∀ i, (enumEntries i xs).map Prod.fst =
      (List.range xs.length).map (fun j => toString (i + j)) := by
  induction xs with
  | nil => intro i; rfl
  | cons x xs ih =>
    intro i
    show toString i :: (enumEntries (i + 1) xs).map Prod.fst = _
    rw [ih (i + 1)]
    simp only [List.length_cons, List.range_succ_eq_map, List.map_cons, List.map_map]
    refine congrArg₂ _ (by simp) (List.map_congr_left fun j hj => ?_)
    simp [Function.comp, Nat.succ_eq_add_one]
    ring_nf

/-- C9: when an array occurs as the value of a key inside a non-array
object parameter, `formatStep` renders it as a nested indented block whose
keys are the array's decimal indices `0`, `1`, … (via `Object.entries` on
the array), not via the compact-JSON fallback — the `JSON.stringify`
fallback is used for an array exactly when the array is the whole
parameters value. -/
theorem formatStep_nested_array_block :
    (∀ k xs, renderEntry (k, .arr xs) = "      " ++ k ++ ":\n" ++
      joinSep "\n" ((enumEntries 0 xs).map fun kv =>
        "        " ++ kv.1 ++ ": " ++ formatValue kv.2)) ∧
    (∀ xs : List JValue, (enumEntries 0 xs).map Prod.fst =
      (List.range xs.length).map toString) ∧
    (∀ c k xs, formatStep ⟨c, some (.obj [(k, .arr xs)])⟩ =
      "- " ++ c ++ ":\n" ++ renderEntry (k, .arr xs)) ∧
    formatStep ⟨"swipe", some (.obj [("values", .arr [.num 10, .num 20])])⟩ =
      "- swipe:\n      values:\n        0: 10\n        1: 20" ∧
    (∀ c xs, formatStep ⟨c, some (.arr xs)⟩ = "- " ++ c ++ ": " ++ jsonStringify (.arr xs)) := by
  refine ⟨fun k xs => rfl, fun xs => ?_, fun c k xs => rfl, by decide, fun c xs => rfl⟩
  rw [enumEntries_keys xs 0]
  exact List.map_congr_left fun j hj => by simp

/-- C4: on every exit path of `executeSteps` — the run resolving (with any
exit code) or throwing — the scratch directory's deletion is attempted
exactly once, as the last filesystem action; when the deletion succeeds the
directory is gone, and whether it succeeds or fails has no effect on what
the caller receives: the run's own outcome (result or propagated error) is
returned unchanged, so a cleanup failure never surfaces. -/
theorem executeSteps_guaranteed_cleanup :
    ∀ dir appId steps runOut rmOk,
      (executeSteps dir appId steps runOut rmOk).2.events =
        [.mkdtemp dir, .write (dir ++ "/flow.yaml"), .run none, .rmAttempt rmOk] ∧
      (executeSteps dir appId steps runOut rmOk).2.dirExists = !rmOk ∧
      (executeSteps dir appId steps runOut rmOk).1 =
        (match runOut with
         | .ok r => .ok (buildYaml appId steps, r)
         | .thrown m => .error m) := by
  intro dir appId steps runOut rmOk
  cases runOut <;> simp [executeSteps, tryFinally, rmCatch]

theorem recordSet_foldl_nodup (outcomes : String → ExecResult) :
    ∀ (ids : List String) (acc : List (String × ExecResult)),
      ids.Nodup → (∀ id ∈ ids, ∀ kv ∈ acc, kv.1 ≠ id) →
      (ids.map (fun id => (id, outcomes id))).foldl (fun m kv => recordSet m kv.1 kv.2) acc =
        acc ++ ids.map (fun id => (id, outcomes id)) := by
  intro ids
  induction ids with
  | nil => intro acc _ _; simp
  | cons id rest ih =>
    intro acc hnd hdisj
    have hid : (acc.any fun kv => kv.1 == id) = false := by
      rw [List.any_eq_false]
      intro kv hkv
      simpa using hdisj id (by simp) kv hkv
    have hstep : recordSet acc id (outcomes id) = acc ++ [(id, outcomes id)] := by
      simp [recordSet, hid]
    have hrest := ih (acc ++ [(id, outcomes id)]) (List.Nodup.of_cons hnd) ?_
    · simpa [hstep, List.append_assoc] using hrest
    · intro id2 hid2 kv hkv
      rcases List.mem_append.mp hkv with h | h
      · exact hdisj id2 (by simp [hid2]) kv h
      · have hkv1 : kv = (id, outcomes id) := by simpa using h
        subst hkv1
        intro he
        have he' : id = id2 := he
        exact (List.nodup_cons.mp hnd).1 (by rw [he']; exact hid2)

/-- C5: for a duplicate-free device-id list, `executeStepsMultiDevice`
builds one shared document, creates and writes to one scratch directory
once, launches one `runFlow` per device id, collects exactly one result
entry per input device id — each equal to that device's own outcome,
independent of every other device's exit code — and attempts the single
scratch-directory deletion exactly once, after all device runs, with a
deletion failure never surfacing to the caller. -/
theorem executeStepsMultiDevice_fanout :
    ∀ dir appId steps (ids : List String) outcomes rmOk, ids.Nodup →
      (executeStepsMultiDevice dir appId steps ids outcomes rmOk).1 =
        .ok (buildYaml appId steps, ids.map fun id => (id, outcomes id)) ∧
      (executeStepsMultiDevice dir appId steps ids outcomes rmOk).2.events =
        [.mkdtemp dir, .write (dir ++ "/flow.yaml")] ++
          ids.map (fun id => FsEvent.run (some id)) ++ [.rmAttempt rmOk] ∧
      ((executeStepsMultiDevice dir appId steps ids outcomes rmOk).2.events.countP
        isRmAttempt) = 1 ∧
      (executeStepsMultiDevice dir appId steps ids outcomes rmOk).2.dirExists = !rmOk := by
  intro dir appId steps ids outcomes rmOk hnd
  have hfold := recordSet_foldl_nodup outcomes ids [] hnd (by simp)
  have hruns : (ids.map fun id => FsEvent.run (some id)).countP isRmAttempt = 0 := by
    rw [List.countP_eq_zero]
    intro e he
    rcases List.mem_map.mp he with ⟨id, _, rfl⟩
    simp [isRmAttempt]
  refine ⟨?_, ?_, ?_, ?_⟩
  · simp [executeStepsMultiDevice, tryFinally, hfold]
  · simp [executeStepsMultiDevice, tryFinally, rmCatch]
  · simp [executeStepsMultiDevice, tryFinally, rmCatch, List.countP_append, hruns,
      List.countP_cons, isRmAttempt]
  · simp [executeStepsMultiDevice, tryFinally, rmCatch]

theorem executeStepsMultiDevice_fanout_witness :
    (executeStepsMultiDevice "/tmp/m" "com.test.app" [⟨"tapOn", some (.str "Button")⟩]
        ["dev-A", "dev-B"]
        (fun id => if id = "dev-A" then ⟨"OK", "", 0⟩ else ⟨"", "Failed", 1⟩) true).1 =
      .ok ("appId: com.test.app\n---\n- tapOn: \"Button\"\n",
        [("dev-A", ⟨"OK", "", 0⟩), ("dev-B", ⟨"", "Failed", 1⟩)]) ∧
    ((executeStepsMultiDevice "/tmp/m" "com.test.app" [⟨"tapOn", some (.str "Button")⟩]
        ["dev-A", "dev-B"]
        (fun id => if id = "dev-A" then ⟨"OK", "", 0⟩ else ⟨"", "Failed", 1⟩) true).2.events.countP
      isRmAttempt) = 1 := by
  have h := executeStepsMultiDevice_fanout "/tmp/m" "com.test.app"
    [⟨"tapOn", some (.str "Button")⟩] ["dev-A", "dev-B"]
    (fun id => if id = "dev-A" then ⟨"OK", "", 0⟩ else ⟨"", "Failed", 1⟩) true (by decide)
  exact ⟨h.1.trans (congrArg Except.ok (by decide)), h.2.2.1⟩

/-- C6: both process-runner modes always produce an `ExecResult` (they are
total functions of the observed process events, modelling that the promise
is resolved, never rejected): in buffered mode the exit code is 0 with no
error, the error's numeric `code` when it has one and 1 otherwise, with
stdout and stderr defaulting to the empty string when unavailable; in
streaming mode the exit code is the reported close code, or 1 when the
close event reports none or the run ends in an `error` event. -/
theorem processRunner_always_resolves :
    (∀ o s, exec ⟨none, o, s⟩ = ⟨o.getD "", s.getD "", 0⟩) ∧
    (∀ c m o s, exec ⟨some ⟨some c, m⟩, o, s⟩ = ⟨o.getD "", s.getD "", c⟩) ∧
    (∀ m o s, exec ⟨some ⟨none, m⟩, o, s⟩ = ⟨o.getD "", s.getD "", 1⟩) ∧
    (∀ oc ec c, execStream ⟨oc, ec, .close (some c)⟩ =
      ⟨String.join oc, String.join ec, c⟩) ∧
    (∀ oc ec, execStream ⟨oc, ec, .close none⟩ = ⟨String.join oc, String.join ec, 1⟩) ∧
    (∀ oc ec e, (execStream ⟨oc, ec, .errorEvent e⟩).exitCode = 1) :=
  ⟨fun _ _ => rfl, fun _ _ _ _ => rfl, fun _ _ _ => rfl, fun _ _ _ => rfl,
    fun _ _ => rfl, fun _ _ _ => rfl⟩

/-- C7 counterexample: in buffered mode a spawn failure (an error whose
`code` is not numeric, e.g. `'ENOENT'`, with the empty stdout/stderr Node
supplies in that case) yields exit code 1 but an *empty* stderr — `exec`
discards the error's message, so no diagnostic text reaches stderr, contrary
to the claim that both modes surface diagnostic text there. -/
theorem exec_spawn_failure_empty_stderr :
    (exec ⟨some ⟨none, "spawn maestro ENOENT"⟩, some "", some ""⟩).exitCode = 1 ∧
    (exec ⟨some ⟨none, "spawn maestro ENOENT"⟩, some "", some ""⟩).stderr = "" := by
  decide

/-- C7 (amended): when the executable is missing and the spawn fails
outright, both modes still resolve to an `ExecResult` with exit code 1 and
never throw past the component boundary; the streaming mode appends the
error's message to stderr as diagnostic text, while the buffered mode
passes the callback-supplied stderr through unchanged (empty when
unavailable), adding no diagnostic text of its own. -/
theorem spawn_failure_surfaced :
    (∀ m o s, exec ⟨some ⟨none, m⟩, o, s⟩ = ⟨o.getD "", s.getD "", 1⟩) ∧
    (∀ oc ec e, execStream ⟨oc, ec, .errorEvent e⟩ =
      ⟨String.join oc, String.join ec ++ "\n" ++ e.message, 1⟩) :=
  ⟨fun _ _ _ => rfl, fun _ _ _ => rfl⟩

/-- C8: `listDevices` isolates the two discovery commands from each other:
a failed Android invocation (non-zero exit, which is also what the
`.catch` fallback produces for a thrown/rejected command) yields the empty
Android list, a failed iOS invocation yields the empty iOS list, a
malformed or unparseable iOS JSON document yields the empty iOS list rather
than an error, each platform's result depends only on its own command's
outcome, and every produced iOS record comes from a device entry whose
availability flag is not explicitly `false`. -/
theorem listDevices_failure_isolation :
    (∀ so se (c : Int) ie ip, c ≠ 0 → (listDevices ⟨so, se, c⟩ ie ip).1 = []) ∧
    (∀ a (ie : Int) ip, ie ≠ 0 → (listDevices a ie ip).2 = []) ∧
    (∀ a ie, (listDevices a ie none).2 = []) ∧
    (∀ a ie ip ie' ip', (listDevices a ie ip).1 = (listDevices a ie' ip').1) ∧
    (∀ a a' ie ip, (listDevices a ie ip).2 = (listDevices a' ie ip).2) ∧
    (∀ a rts x, x ∈ (listDevices a 0 (some rts)).2 →
      ∃ rt ∈ rts, ∃ d ∈ rt.2, d.isAvailable ≠ some false ∧
        x = ⟨d.udid, d.name ++ " (" ++ lastComponent rt.1 ++ ")", iosStatusOf d.state⟩) := by
  refine ⟨fun so se c ie ip hc => ?_, fun a ie ip hi => ?_, fun a ie => ?_,
    fun _ _ _ _ _ => rfl, fun _ _ _ _ => rfl, fun a rts x hx => ?_⟩
  · simp [listDevices, parseAndroid, hc]
  · simp [listDevices, parseIos, hi]
  · simp [listDevices, parseIos]
  · simp only [listDevices, parseIos, if_pos] at hx
    rcases List.mem_flatMap.mp hx with ⟨rt, hrt, hx2⟩
    rcases List.mem_map.mp hx2 with ⟨d, hd, rfl⟩
    rcases List.mem_filter.mp hd with ⟨hd1, hd2⟩
    exact ⟨rt, hrt, d, hd1, of_decide_eq_true hd2, rfl⟩

theorem listDevices_failure_isolation_witness :
    (listDevices ⟨"noise", "spawn adb ENOENT", 1⟩ 0 (some [])).1 = [] ∧
    (listDevices ⟨"List of devices attached\n", "", 0⟩ 1 (some [])).2 = [] ∧
    (∃ rt ∈ [("com.apple.CoreSimulator.SimRuntime.iOS-17-5",
        [SimDevice.mk "U1" "iPhone 16" (some "Booted") (some true)])],
      ∃ d ∈ rt.2, d.isAvailable ≠ some false ∧
        (⟨"U1", "iPhone 16 (iOS-17-5)", "booted"⟩ : IosDevice) =
          ⟨d.udid, d.name ++ " (" ++ lastComponent rt.1 ++ ")", iosStatusOf d.state⟩) :=
  ⟨listDevices_failure_isolation.1 "noise" "spawn adb ENOENT" 1 0 (some []) (by decide),
   listDevices_failure_isolation.2.1 ⟨"List of devices attached\n", "", 0⟩ 1 (some [])
     (by decide),
   listDevices_failure_isolation.2.2.2.2.2 ⟨"", "", 0⟩
     [("com.apple.CoreSimulator.SimRuntime.iOS-17-5",
        [SimDevice.mk "U1" "iPhone 16" (some "Booted") (some true)])]
     ⟨"U1", "iPhone 16 (iOS-17-5)", "booted"⟩ (by decide)⟩

/-- C10: `takeScreenshot` creates a fresh scratch directory, writes the
generated flow file inside it, and never attempts to delete the directory
on any path — the directory (and the flow file in it) remains even when an
explicit output path was supplied; the returned path is the caller-supplied
`outputPath` when one is given and `<dir>/screenshot.png` inside the new
scratch directory otherwise. -/
theorem takeScreenshot_no_cleanup :
    ∀ dir dev outPath res,
      (takeScreenshot dir dev outPath res).2.dirExists = true ∧
      ((takeScreenshot dir dev outPath res).2.events.countP isRmAttempt) = 0 ∧
      (takeScreenshot dir dev outPath res).2.events =
        [.mkdtemp dir, .write (dir ++ "/screenshot_flow.yaml"), .run dev] ∧
      (takeScreenshot dir dev outPath res).1 =
        (outPath.getD (dir ++ "/screenshot.png"), res) := by
  intro dir dev outPath res
  refine ⟨rfl, ?_, rfl, rfl⟩
  simp [takeScreenshot, List.countP_cons, isRmAttempt]

end Maestro
